import Mathlib

/-!
Shallow embedding of the DISCORD-AUTO-CHAT repository (apiClient.js, ui.js,
index.js).  JS strings are modelled as `List Char`, JS `Map`s and plain objects
as association lists, and every HTTP call site is parametrised by its axios
outcome (resolved data, or the thrown error value), mirroring the try/catch
structure of the source.  `botLogic.js` is not part of the sources; the few
pieces of it that claims need are modelled from the spec and marked as such.
-/

/-- JS strings, modelled as lists of characters. -/
abbrev Str := List Char

/-- JS truthiness of an optional string: `undefined`, `null` and `""` are falsy. -/
def truthyStr : Option Str → Bool
  | some s => !s.isEmpty
  | none => false

/-- JS `x || d` for an optional string `x`: the string when truthy, else the default. -/
def orDefaultStr (x : Option Str) (d : Str) : Str :=
  match x with
  | some s => if s.isEmpty then d else s
  | none => d

/-- ui.js lines 208 and 217: `${s.substring(0, 5)}...${s.substring(s.length - 4)}`.
JS `substring` clamps its arguments to the string bounds, which `List.take` and
`List.drop` on `Nat` match exactly (`s.length - 4` truncates at 0). -/
def mask (s : Str) : Str := s.take 5 ++ "...".toList ++ s.drop (s.length - 4)

/-! ## apiClient.js (src/unnamed/part_000) -/

/-- The `response` object attached to an axios error, present when the request
reached the server; `data` is the parsed error body. -/
structure AxiosErrorResponse (β : Type) where
  status : Nat
  data : β

/-- The error value thrown by an axios call: `error.response` is absent when no
response arrived (network failure, client-side throw). -/
structure AxiosError (β : Type) where
  response : Option (AxiosErrorResponse β)

/-- Outcome of one axios call: resolved with data, or rejected with an error value.
Every apiClient function is parametrised by this outcome, since the network is
external to the program. -/
inductive AxiosOutcome (α β : Type) where
  | ok (data : α)
  | err (e : AxiosError β)

/-- Discord error body as far as apiClient.js inspects it (`retry_after`, line 72). -/
structure DiscordErrorData where
  retry_after : Option Nat

/-- A Discord message as far as the client inspects it. -/
structure DiscordMessage where
  id : Str
  content : Str

/-- A Discord user record as returned by `/users/@me`. -/
structure DiscordUser where
  id : Str
  username : Str

/-- apiClient.js `createDiscordHeaders` (lines 19-23). -/
structure DiscordHeaders where
  authorization : Str
  contentType : Str
  userAgent : Str

def createDiscordHeaders (token : Str) : DiscordHeaders :=
  ⟨token, "application/json".toList, "DiscordBot (Node.js, 1.0)".toList⟩

/-- apiClient.js `fetchMessages` (lines 39-49): `response.data` on success,
`null` on any error. -/
def fetchMessages (channelId token : Str)
    (net : AxiosOutcome (List DiscordMessage) DiscordErrorData) :
    Option (List DiscordMessage) :=
  match net with
  | .ok d => some d
  | .err _ => none

structure MessageReference where
  message_id : Str

/-- The body posted by `sendMessage`: `content` always, `message_reference` optionally. -/
structure SendPayload where
  content : Str
  message_reference : Option MessageReference

/-- apiClient.js lines 62-65: `const payload = { content }` plus
`payload.message_reference = { message_id: replyToMessageId }` guarded by the JS
truthiness of `replyToMessageId` (so `null` and `""` both omit the field). -/
def sendMessagePayload (content : Str) (replyToMessageId : Option Str) : SendPayload :=
  ⟨content,
    match replyToMessageId with
    | some mid => if mid.isEmpty then none else some ⟨mid⟩
    | none => none⟩

/-- apiClient.js `sendMessage` (lines 59-78): posts the payload built by
`sendMessagePayload` and returns the response data, or `null` on any error;
a rate-limited error only logs `retry_after` (line 72) before returning `null`. -/
def sendMessage (channelId content token : Str) (replyToMessageId : Option Str)
    (net : SendPayload → AxiosOutcome DiscordMessage DiscordErrorData) :
    Option DiscordMessage :=
  match net (sendMessagePayload content replyToMessageId) with
  | .ok d => some d
  | .err _ => none

/-- apiClient.js `deleteMessage` (lines 87-97): `true` on success, `false` on any
error (the failure is logged, not rethrown). -/
def deleteMessage (channelId messageId token : Str)
    (net : AxiosOutcome Unit DiscordErrorData) : Bool :=
  match net with
  | .ok _ => true
  | .err _ => false

/-- apiClient.js `getBotInfo` (lines 104-114): user data on success, `null` on error. -/
def getBotInfo (token : Str)
    (net : AxiosOutcome DiscordUser DiscordErrorData) : Option DiscordUser :=
  match net with
  | .ok d => some d
  | .err _ => none

/-- Channel data as inspected and extended by `getChannelInfo`. -/
structure ChannelData where
  name : Option Str
  rate_limit_per_user : Option Nat
  guild_id : Option Str
  guild_name : Option Str

structure GuildData where
  name : Option Str

/-- apiClient.js `getChannelInfo` (lines 122-145): on channel-fetch success, sets
`guild_name` from the guild lookup (which has its own try/catch) when `guild_id`
is truthy, else to `"Direct Message"`; returns `null` only when the channel fetch
itself fails. -/
def getChannelInfo (channelId token : Str)
    (chanNet : AxiosOutcome ChannelData DiscordErrorData)
    (guildNet : AxiosOutcome GuildData DiscordErrorData) : Option ChannelData :=
  match chanNet with
  | .err _ => none
  | .ok data =>
    if truthyStr data.guild_id then
      match guildNet with
      | .ok g =>
        some { data with guild_name := some (orDefaultStr g.name "Unknown Server".toList) }
      | .err _ =>
        some { data with guild_name := some "Unknown Server (Error)".toList }
    else
      some { data with guild_name := some "Direct Message".toList }

structure GeminiPart where
  text : Str

structure GeminiContent where
  parts : Option (List GeminiPart)

structure GeminiCandidate where
  content : Option GeminiContent

structure GeminiResponseData where
  candidates : Option (List GeminiCandidate)

def isJsWhitespace (c : Char) : Bool :=
  c = ' ' || c = '\t' || c = '\n' || c = '\r'

/-- JS `String.prototype.trim`, restricted to the common ASCII whitespace characters. -/
def trim (s : Str) : Str :=
  ((s.dropWhile isJsWhitespace).reverse.dropWhile isJsWhitespace).reverse

/-- apiClient.js lines 188-198: the guarded extraction
`response.data.candidates[0].content.parts[0].text.trim()`; `null` when any guard
of line 188-190 fails (missing or empty `candidates`, missing `content`, missing
or empty `parts`). -/
def geminiExtractText (d : GeminiResponseData) : Option Str :=
  match d.candidates with
  | some (c :: _) =>
    match c.content with
    | some cont =>
      match cont.parts with
      | some (p :: _) => some (trim p.text)
      | some [] => none
      | none => none
    | none => none
  | some [] => none
  | none => none

def GOOGLE_API_BASE : Str :=
  "https://generativelanguage.googleapis.com/v1beta/models/gemini-1.5-flash-latest:generateContent".toList

/-- apiClient.js lines 159-167: the language-dispatched base prompt; `none` marks
the invalid-language early `return null`. -/
def basePrompt (userMessage promptLanguage : Str) : Option Str :=
  if promptLanguage = "id".toList then
    some ("Balas pesan berikut dalam bahasa Indonesia: \"".toList ++ userMessage ++ "\"".toList)
  else if promptLanguage = "en".toList then
    some ("Reply to the following message in English: \"".toList ++ userMessage ++ "\"".toList)
  else none

/-- apiClient.js line 170: the refinement appended to the base prompt. -/
def refinedPromptSuffix : Str :=
  "\n\nBuatlah menjadi 1 kalimat menggunakan bahasa sehari-hari manusia.".toList

structure GeminiRequest where
  url : Str
  promptText : Str

/-- The request `generateGeminiReply` issues (url of line 156, prompt of lines
159-170): `none` exactly when the invalid-language branch returns before any
HTTP call is made. -/
def geminiBuildRequest (userMessage apiKey promptLanguage : Str) : Option GeminiRequest :=
  (basePrompt userMessage promptLanguage).map
    (fun bp => ⟨GOOGLE_API_BASE ++ "?key=".toList ++ apiKey, bp ++ refinedPromptSuffix⟩)

/-- apiClient.js `generateGeminiReply` (lines 155-211): `null` for an invalid
language (no request issued); otherwise the extracted candidate text on success,
the in-band sentinel string `'RATE_LIMITED'` when the call was rejected with
HTTP status 429, and `null` for every other failure. -/
def generateGeminiReply (userMessage apiKey promptLanguage : Str)
    (net : AxiosOutcome GeminiResponseData Unit) : Option Str :=
  match geminiBuildRequest userMessage apiKey promptLanguage with
  | none => none
  | some _ =>
    match net with
    | .ok d => geminiExtractText d
    | .err e =>
      match e.response with
      | some r => if r.status = 429 then some "RATE_LIMITED".toList else none
      | none => none

/-- apiClient.js line 155: the JS default parameter `promptLanguage = 'id'`
(a call that omits the language argument). -/
def generateGeminiReplyDefault (userMessage apiKey : Str)
    (net : AxiosOutcome GeminiResponseData Unit) : Option Str :=
  generateGeminiReply userMessage apiKey "id".toList net

/-! ## ui.js -/

/-- One entry of the `botInfos` object: resolved identity plus the token it
belongs to (`tokenRef`, compared against each configured token at line 207). -/
structure BotInfo where
  tokenRef : Str
  fullUsername : Str

/-- One entry of `channelDetails`. -/
structure ChannelDetails where
  name : Option Str
  error : Option Str

/-- The statusData object consumed by `TUI.formatStatusContent` (ui.js lines
195-198).  `botInfos` keeps the object's values (its keys are used only for the
count, which equals the number of values); `rateLimitedKeys` is the `Map`'s
entry list. -/
structure StatusData where
  botInfos : List BotInfo
  channelDetails : List (Str × ChannelDetails)
  discordTokens : List Str
  googleApiKeys : List Str
  channelIds : List Str
  rateLimitedKeys : List (Str × Nat)
  isRunning : Bool

/-- JS `Map.prototype.get` over the entry list (keys are pairwise distinct). -/
def mapGet (m : List (Str × Nat)) (k : Str) : Option Nat :=
  match m with
  | [] => none
  | p :: rest => if p.1 = k then some p.2 else mapGet rest k

/-- JS `Map.prototype.set`: replaces the entry in place, else appends. -/
def mapSet (m : List (Str × Nat)) (k : Str) (v : Nat) : List (Str × Nat) :=
  match m with
  | [] => [(k, v)]
  | p :: rest => if p.1 = k then (k, v) :: rest else p :: mapSet rest k v

/-- Object indexing `channelDetails[id]`. -/
def lookupDetails (m : List (Str × ChannelDetails)) (k : Str) : Option ChannelDetails :=
  match m with
  | [] => none
  | p :: rest => if p.1 = k then some p.2 else lookupDetails rest k

/-- JS number-to-string interpolation for the naturals used by the status box. -/
def natStr (n : Nat) : Str := (toString n).toList

/-- `Math.ceil (a / b)` for naturals. -/
def ceilDiv (a b : Nat) : Nat := (a + b - 1) / b

/-- ui.js line 200: the Status header line. -/
def statusHeader (isRunning : Bool) : Str :=
  "{bold}Status:{/} ".toList ++
  (if isRunning then "{green-fg}Running{/green-fg}".toList
   else "{red-fg}Stopped{/red-fg}".toList) ++
  "\n".toList

/-- ui.js lines 207-209: the identity part of one token line —
`Object.values(botInfos).find(bInfo => bInfo.tokenRef === token)` rendered as the
green username on a hit and as the red `X` marker otherwise. -/
def tokenStatusPart (token : Str) (botInfos : List BotInfo) : Str :=
  match botInfos.find? (fun b => b.tokenRef == token) with
  | some info => "({green-fg}".toList ++ info.fullUsername ++ "{/green-fg})".toList
  | none => "({red-fg}X{/red-fg})".toList

/-- ui.js lines 206-210: one line of the Discord-token block. -/
def tokenLine (idx : Nat) (token : Str) (botInfos : List BotInfo) : Str :=
  " T".toList ++ natStr (idx + 1) ++ ": ".toList ++ mask token ++ " ".toList ++
  tokenStatusPart token botInfos ++ "\n".toList

/-- The `forEach` accumulation over `discordTokens` with its running index. -/
def tokenLinesAux (idx : Nat) (tokens : List Str) (botInfos : List BotInfo) : Str :=
  match tokens with
  | [] => []
  | t :: rest => tokenLine idx t botInfos ++ tokenLinesAux (idx + 1) rest botInfos

/-- ui.js lines 203-211: the Discord-token block, headed by
`(${Object.keys(botInfos).length}/${discordTokens.length} loaded)`. -/
def tokensSection (discordTokens : List Str) (botInfos : List BotInfo) : Str :=
  "\n{bold}Discord Tokens (".toList ++ natStr botInfos.length ++ "/".toList ++
  natStr discordTokens.length ++ " loaded):{/}\n".toList ++
  (if 0 < discordTokens.length then tokenLinesAux 0 discordTokens botInfos
   else " (None)\n".toList)

/-- ui.js line 219: `const limited = expiry && expiry > Date.now()` — with JS
number truthiness, so a stored expiry of `0` is falsy (and also never `> now`). -/
def keyLimited (rateLimitedKeys : List (Str × Nat)) (key : Str) (now : Nat) : Bool :=
  match mapGet rateLimitedKeys key with
  | some e => (e != 0) && (now < e)
  | none => false

/-- ui.js lines 216-221: one line of the Google-API-key block; the remaining-minutes
text is `Math.ceil((expiry - Date.now()) / 1000 / 60)`. -/
def keyLine (idx : Nat) (key : Str) (rateLimitedKeys : List (Str × Nat)) (now : Nat) : Str :=
  " K".toList ++ natStr (idx + 1) ++ ": ".toList ++ mask key ++ " ".toList ++
  (match mapGet rateLimitedKeys key with
   | some e =>
     if (e != 0) && (now < e) then
       "{red-fg}Limited".toList ++ " (~".toList ++ natStr (ceilDiv (e - now) 60000) ++
       "m)".toList ++ "{/red-fg}".toList
     else "{green-fg}Active{/green-fg}".toList
   | none => "{green-fg}Active{/green-fg}".toList) ++ "\n".toList

def keyLinesAux (idx : Nat) (keys : List Str) (rateLimitedKeys : List (Str × Nat))
    (now : Nat) : Str :=
  match keys with
  | [] => []
  | k :: rest => keyLine idx k rateLimitedKeys now ++ keyLinesAux (idx + 1) rest rateLimitedKeys now

/-- ui.js lines 214-223: the Google-API-key block. -/
def keysSection (googleApiKeys : List Str) (rateLimitedKeys : List (Str × Nat))
    (now : Nat) : Str :=
  "\n{bold}Google API Keys (".toList ++ natStr googleApiKeys.length ++ "):{/}\n".toList ++
  (if 0 < googleApiKeys.length then keyLinesAux 0 googleApiKeys rateLimitedKeys now
   else " (None)\n".toList)

/-- ui.js lines 228-235: one line of the channel block. -/
def channelLine (id : Str) (channelDetails : List (Str × ChannelDetails)) : Str :=
  let details := lookupDetails channelDetails id
  let shortId := if 6 < id.length then "...".toList ++ id.drop (id.length - 6) else id
  let name :=
    match details with
    | some d => orDefaultStr d.name "...".toList
    | none => "...".toList
  let status :=
    match details with
    | some d => if truthyStr d.error then "{red-fg}Fail{/red-fg}".toList
                else "{green-fg}OK{/green-fg}".toList
    | none => "{yellow-fg}Init{/yellow-fg}".toList
  " ".toList ++ shortId ++ ": ".toList ++ name.take 15 ++ " (".toList ++ status ++ ")\n".toList

def channelLinesAux (ids : List Str) (channelDetails : List (Str × ChannelDetails)) : Str :=
  match ids with
  | [] => []
  | id :: rest => channelLine id channelDetails ++ channelLinesAux rest channelDetails

/-- ui.js lines 226-237: the channel block. -/
def channelsSection (channelIds : List Str)
    (channelDetails : List (Str × ChannelDetails)) : Str :=
  "\n{bold}Channels (".toList ++ natStr channelIds.length ++ "):{/}\n".toList ++
  (if 0 < channelIds.length then channelLinesAux channelIds channelDetails
   else " (None)\n".toList)

/-- ui.js lines 240-245: the fixed instructions footer. -/
def controlsSection : Str :=
  "\n{bold}---------------------------------{/bold}\n".toList ++
  "{bold}Controls:{/}\n".toList ++
  " {yellow-fg}Ctrl+C{/yellow-fg}, {yellow-fg}Q{/yellow-fg}, {yellow-fg}Esc{/yellow-fg}: Exit\n".toList ++
  " {yellow-fg}Tab{/yellow-fg}/{yellow-fg}S-Tab{/yellow-fg}    : Cycle Focus\n".toList ++
  " ({yellow-fg}Yellow Border{/yellow-fg} = Active Pane)\n".toList ++
  " {yellow-fg}Arrows{/yellow-fg}/{yellow-fg}PgUp/Dn{/yellow-fg}: Scroll Focused Pane".toList

/-- ui.js `TUI.formatStatusContent` (lines 194-248), with `Date.now()` passed in
as `now`. -/
def formatStatusContent (sd : StatusData) (now : Nat) : Str :=
  statusHeader sd.isRunning ++
  tokensSection sd.discordTokens sd.botInfos ++
  keysSection sd.googleApiKeys sd.rateLimitedKeys now ++
  channelsSection sd.channelIds sd.channelDetails ++
  controlsSection

/-! ## index.js and the spec-modelled parts of botLogic.js -/

/-- Modelled from the spec: botLogic.js is not under src.  Per spec §3 and §6 the
bot logic holds the ordered credential, key and channel lists, the per-key
cooldown map, the resolved identities and channel metadata, and a running flag;
the getters called at index.js lines 26-32 read exactly this state. -/
structure BotLogicState where
  botInfos : List BotInfo
  channelDetails : List (Str × ChannelDetails)
  discordTokens : List Str
  googleApiKeys : List Str
  channelIds : List Str
  rateLimitedKeys : List (Str × Nat)
  running : Bool

/-- index.js lines 25-33: the statusData object handed to `ui.updateStatus`,
built field-by-field from the botLogic getters. -/
def buildStatusPayload (b : BotLogicState) : StatusData :=
  ⟨b.botInfos, b.channelDetails, b.discordTokens, b.googleApiKeys, b.channelIds,
   b.rateLimitedKeys, b.running⟩

/-- Modelled from the spec: `markRateLimited` lives in botLogic.js, which is not
under src.  Spec §4.1: sets cooldown-until = now + retryAfterSeconds, or a fixed
default window (60) when the gateway supplied no retry hint. -/
def markRateLimited (m : List (Str × Nat)) (key : Str) (now : Nat)
    (retryAfterSeconds : Option Nat) : List (Str × Nat) :=
  mapSet m key (now + (match retryAfterSeconds with | some r => r | none => 60))

/-- Every secret value occurring in a statusData record: the configured tokens
and keys, the token references of the resolved identities, and the keys of the
cooldown map. -/
def secretsOf (sd : StatusData) : List Str :=
  sd.discordTokens ++ sd.googleApiKeys ++ sd.botInfos.map (fun b => b.tokenRef) ++
  sd.rateLimitedKeys.map (fun p => p.1)

/-- Renaming of the secret values of a statusData record by `ρ`, leaving every
non-secret field (usernames, channel data, flags) unchanged. -/
def renameSecrets (ρ : Str → Str) (sd : StatusData) : StatusData :=
  { sd with
    discordTokens := sd.discordTokens.map ρ
    googleApiKeys := sd.googleApiKeys.map ρ
    botInfos := sd.botInfos.map (fun b => { b with tokenRef := ρ b.tokenRef })
    rateLimitedKeys := sd.rateLimitedKeys.map (fun p => (ρ p.1, p.2)) }

/-! ## Concrete instances used by witnesses and counterexamples -/

/-- A bot-logic state with one configured Discord credential, used to exhibit the
payload that index.js hands to the TUI. -/
def leakState : BotLogicState :=
  ⟨[], [], ["SECRETDISCORDTOKEN9".toList], [], [], [], true⟩

/-- A statusData with two configured tokens of which only the first has a resolved
identity. -/
def sdW : StatusData :=
  ⟨[⟨"tokenAAAA1".toList, "alice".toList⟩], [],
   ["tokenAAAA1".toList, "tokenBBBB2".toList], [], [], [], true⟩

/-- A statusData holding one token and one generation key, both on the snapshot
boundary. -/
def sdN : StatusData :=
  ⟨[⟨"AAAAAmid111ZZZZ".toList, "alice".toList⟩], [],
   ["AAAAAmid111ZZZZ".toList], ["KEYAAmid222YYYY".toList], [],
   [("KEYAAmid222YYYY".toList, 50)], true⟩

/-- A renaming that rewrites the middle of the secrets of `sdN` while keeping
their first 5 and last 4 characters (hence their masked forms). -/
def renameW : Str → Str := fun s =>
  if s = "AAAAAmid111ZZZZ".toList then "AAAAAchangedZZZZ".toList
  else if s = "KEYAAmid222YYYY".toList then "KEYAAotherYYYY".toList
  else s

/-! ## Helper lemmas -/

theorem find?_congr_mem {α : Type} (l : List α) (p q : α → Bool)
    (h : ∀ x ∈ l, p x = q x) : l.find? p = l.find? q := by
  induction l with
  | nil => rfl
  | cons a t ih =>
    simp only [List.find?]
    rw [h a (List.mem_cons_self a t)]
    cases hq : q a with
    | true => rfl
    | false => exact ih (fun x hx => h x (List.mem_cons_of_mem a hx))

theorem mapGet_map_rename (m : List (Str × Nat)) (k : Str) (ρ : Str → Str)
    (h : ∀ p ∈ m, ρ p.1 = ρ k → p.1 = k) :
    mapGet (m.map (fun p => (ρ p.1, p.2))) (ρ k) = mapGet m k := by
  induction m with
  | nil => rfl
  | cons a t ih =>
    simp only [List.map_cons, mapGet]
    by_cases hak : a.1 = k
    · rw [if_pos hak, if_pos (by rw [hak])]
    · rw [if_neg hak, if_neg (fun hc => hak (h a (List.mem_cons_self a t) hc))]
      exact ih (fun p hp => h p (List.mem_cons_of_mem a hp))

theorem mapGet_mapSet_self (m : List (Str × Nat)) (k : Str) (v : Nat) :
    mapGet (mapSet m k v) k = some v := by
  induction m with
  | nil => simp [mapSet, mapGet]
  | cons a t ih =>
    simp only [mapSet]
    by_cases hak : a.1 = k
    · rw [if_pos hak]; simp [mapGet]
    · rw [if_neg hak]; simp only [mapGet, if_neg hak]; exact ih

/-! ## Claim theorems -/

/-- C3: for every credential or key string of length at least 9, the masked form
displayed in the status snapshot consists of exactly the first 5 characters, the
elision marker `...`, and the last 4 characters (total length 12), and is
insensitive to the middle portion: any string with the same first 5 and last 4
characters masks to the same display, so no information about the middle appears. -/
theorem mask_format (s f m l : Str) (hs : 9 ≤ s.length) (hf : f.length = 5)
    (hl : l.length = 4) :
    mask s = s.take 5 ++ "...".toList ++ s.drop (s.length - 4) ∧
    (mask s).length = 12 ∧
    mask (f ++ m ++ l) = f ++ "...".toList ++ l ∧
    (∃ f' m' l', s = f' ++ m' ++ l' ∧ f'.length = 5 ∧ l'.length = 4 ∧
      mask s = f' ++ "...".toList ++ l') := by
  have htake : (f ++ m ++ l).take 5 = f := by
    rw [List.append_assoc, ← hf, List.take_left]
  have hdlen : (f ++ m ++ l).length - 4 = (f ++ m).length := by
    simp only [List.length_append, hf, hl]
    omega
  have hdrop : (f ++ m ++ l).drop ((f ++ m ++ l).length - 4) = l := by
    rw [hdlen, List.drop_left]
  refine ⟨rfl, ?_, ?_, ?_⟩
  · simp only [mask, List.length_append, List.length_take, List.length_drop]
    have : "...".toList.length = 3 := by decide
    omega
  · show mask (f ++ m ++ l) = f ++ "...".toList ++ l
    unfold mask
    rw [htake, hdrop]
  · refine ⟨s.take 5, (s.drop 5).take (s.length - 9), s.drop (s.length - 4), ?_, ?_, ?_, rfl⟩
    · have h1 : s.take 5 ++ s.drop 5 = s := List.take_append_drop 5 s
      have h2 : (s.drop 5).take (s.length - 9) ++ (s.drop 5).drop (s.length - 9) = s.drop 5 :=
        List.take_append_drop (s.length - 9) (s.drop 5)
      have h3 : (s.drop 5).drop (s.length - 9) = s.drop (s.length - 4) := by
        rw [List.drop_drop]
        congr 1
        omega
      calc s = s.take 5 ++ s.drop 5 := h1.symm
        _ = s.take 5 ++ ((s.drop 5).take (s.length - 9) ++ (s.drop 5).drop (s.length - 9)) := by
              rw [h2]
        _ = s.take 5 ++ ((s.drop 5).take (s.length - 9) ++ s.drop (s.length - 4)) := by
              rw [h3]
        _ = s.take 5 ++ (s.drop 5).take (s.length - 9) ++ s.drop (s.length - 4) := by
              rw [List.append_assoc]
    · simp only [List.length_take]
      omega
    · simp only [List.length_drop]
      omega

/-- Witness for C3 at a concrete 13-character secret. -/
theorem mask_format_witness :
    mask "ABCDEFGHIJKLM".toList = "ABCDE...JKLM".toList ∧
    (mask "ABCDEFGHIJKLM".toList).length = 12 ∧
    mask ("ABCDE".toList ++ "near".toList ++ "WXYZ".toList) = "ABCDE...WXYZ".toList := by
  obtain ⟨h1, h2, h3, -⟩ :=
    mask_format "ABCDEFGHIJKLM".toList "ABCDE".toList "near".toList "WXYZ".toList
      (by decide) (by decide) (by decide)
  refine ⟨?_, h2, ?_⟩
  · rw [h1]; decide
  · rw [h3]; decide

/-- C6: no API-client operation raises to its caller: on every failure of the
underlying HTTP call, each operation returns its in-band failure value — `null`
for fetchMessages, sendMessage, getBotInfo and getChannelInfo, `false` for
deleteMessage — and generateGeminiReply returns `null` or the in-band
`'RATE_LIMITED'` sentinel; no error value ever escapes the catch handlers. -/
theorem apiClient_no_throw (channelId messageId token userMessage apiKey lang content : Str)
    (replyTo : Option Str) (e : AxiosError DiscordErrorData) (eg : AxiosError Unit)
    (gnet : AxiosOutcome GuildData DiscordErrorData) :
    fetchMessages channelId token (.err e) = none ∧
    sendMessage channelId content token replyTo (fun _ => .err e) = none ∧
    deleteMessage channelId messageId token (.err e) = false ∧
    getBotInfo token (.err e) = none ∧
    getChannelInfo channelId token (.err e) gnet = none ∧
    (generateGeminiReply userMessage apiKey lang (.err eg) = none ∨
     generateGeminiReply userMessage apiKey lang (.err eg) = some "RATE_LIMITED".toList) := by
  refine ⟨rfl, rfl, rfl, rfl, rfl, ?_⟩
  unfold generateGeminiReply
  cases geminiBuildRequest userMessage apiKey lang with
  | none => exact Or.inl rfl
  | some req =>
    cases hre : eg.response with
    | none => exact Or.inl (by simp [hre])
    | some r =>
      by_cases h429 : r.status = 429
      · exact Or.inr (by simp [hre, h429])
      · exact Or.inl (by simp [hre, h429])

/-- C10: whenever the channel fetch succeeds, getChannelInfo succeeds (a guild
lookup failure never fails the overall operation) and the returned record always
has guild_name defined: the guild's name (or `Unknown Server` when that is
falsy) for a guild channel, `Unknown Server (Error)` when the guild lookup
fails, and `Direct Message` for a non-guild channel; all other channel fields
are passed through. -/
theorem getChannelInfo_guild_name (channelId token : Str) (d : ChannelData)
    (gnet : AxiosOutcome GuildData DiscordErrorData) :
    ∃ r, getChannelInfo channelId token (.ok d) gnet = some r ∧
      r.guild_name = some
        (if truthyStr d.guild_id then
          match gnet with
          | .ok g => orDefaultStr g.name "Unknown Server".toList
          | .err _ => "Unknown Server (Error)".toList
         else "Direct Message".toList) ∧
      r.name = d.name ∧ r.rate_limit_per_user = d.rate_limit_per_user ∧
      r.guild_id = d.guild_id := by
  unfold getChannelInfo
  by_cases hg : truthyStr d.guild_id
  · cases gnet with
    | ok g =>
      refine ⟨{ d with guild_name := some (orDefaultStr g.name "Unknown Server".toList) },
        ?_, ?_, rfl, rfl, rfl⟩
      · simp [hg]
      · simp [hg]
    | err ge =>
      refine ⟨{ d with guild_name := some "Unknown Server (Error)".toList },
        ?_, ?_, rfl, rfl, rfl⟩
      · simp [hg]
      · simp [hg]
  · refine ⟨{ d with guild_name := some "Direct Message".toList }, ?_, ?_, rfl, rfl, rfl⟩
    · simp [hg]
    · simp [hg]

/-- C9: for every promptLanguage other than `en` and `id`, generateGeminiReply
builds no request for the generation service and returns the generic failure
`null` no matter what the network would have answered; a call omitting the
language argument uses the JS default `'id'`. -/
theorem gemini_invalid_language (userMessage apiKey lang : Str)
    (h1 : lang ≠ "id".toList) (h2 : lang ≠ "en".toList) :
    geminiBuildRequest userMessage apiKey lang = none ∧
    (∀ net, generateGeminiReply userMessage apiKey lang net = none) ∧
    (∀ u k net, generateGeminiReplyDefault u k net = generateGeminiReply u k "id".toList net) := by
  have hb : basePrompt userMessage lang = none := by
    unfold basePrompt
    rw [if_neg h1, if_neg h2]
  have hr : geminiBuildRequest userMessage apiKey lang = none := by
    unfold geminiBuildRequest
    rw [hb]
    rfl
  refine ⟨hr, fun net => ?_, fun u k net => rfl⟩
  unfold generateGeminiReply
  rw [hr]

/-- Witness for C9 at the concrete unsupported language `fr`. -/
theorem gemini_invalid_language_witness :
    geminiBuildRequest "hello".toList "key12".toList "fr".toList = none ∧
    generateGeminiReply "hello".toList "key12".toList "fr".toList (.ok ⟨none⟩) = none := by
  obtain ⟨h1, h2, -⟩ :=
    gemini_invalid_language "hello".toList "key12".toList "fr".toList (by decide) (by decide)
  exact ⟨h1, h2 _⟩

/-- C2 counterexample: a send rejected with a rate-limit error body
(`retry_after` present, status 429) and a send rejected with a bare network error
return the same value, `null`, so the caller of sendMessage cannot distinguish
the rate-limited outcome from a generic failure. -/
theorem sendMessage_rate_limit_indistinguishable :
    sendMessage "chan1".toList "hello".toList "token".toList none
        (fun _ => .err ⟨some ⟨429, ⟨some 5⟩⟩⟩) =
      sendMessage "chan1".toList "hello".toList "token".toList none
        (fun _ => .err ⟨none⟩) ∧
    sendMessage "chan1".toList "hello".toList "token".toList none
        (fun _ => .err ⟨some ⟨429, ⟨some 5⟩⟩⟩) = none := ⟨rfl, rfl⟩

/-- C2 amended: only generateGeminiReply has the three-way outcome (generated
text, the `'RATE_LIMITED'` sentinel on a 429 rejection, `null` otherwise); the
Discord operations are two-way — every rejection of fetchMessages, sendMessage
or getBotInfo yields `null` and of deleteMessage yields `false`, with the
rate-limit's retry_after value only logged, never returned. -/
theorem gateway_outcome_shapes (channelId messageId token content userMessage apiKey : Str)
    (replyTo : Option Str) (e : AxiosError DiscordErrorData) (d : GeminiResponseData)
    (gnet : AxiosOutcome GuildData DiscordErrorData) :
    sendMessage channelId content token replyTo (fun _ => .err e) = none ∧
    fetchMessages channelId token (.err e) = none ∧
    deleteMessage channelId messageId token (.err e) = false ∧
    getBotInfo token (.err e) = none ∧
    getChannelInfo channelId token (.err e) gnet = none ∧
    generateGeminiReply userMessage apiKey "id".toList (.err ⟨some ⟨429, ()⟩⟩) =
      some "RATE_LIMITED".toList ∧
    generateGeminiReply userMessage apiKey "id".toList (.err ⟨none⟩) = none ∧
    generateGeminiReply userMessage apiKey "id".toList (.ok d) = geminiExtractText d := by
  refine ⟨rfl, rfl, rfl, rfl, rfl, ?_, ?_, ?_⟩ <;>
    simp [generateGeminiReply, geminiBuildRequest, basePrompt]

/-- C4 counterexample: a successful (non-429) generation response whose first
candidate text is exactly `RATE_LIMITED` makes generateGeminiReply return the
same in-band sentinel value `'RATE_LIMITED'`, so the distinguished rate-limited
outcome is also produced on an input where the service did not respond with
HTTP status 429. -/
theorem gemini_sentinel_collision :
    generateGeminiReply "hi".toList "key12".toList "en".toList
        (.ok ⟨some [⟨some ⟨some [⟨"RATE_LIMITED".toList⟩]⟩⟩]⟩) =
      some "RATE_LIMITED".toList := by decide

/-- C4 amended: with a valid language, generateGeminiReply returns the
`'RATE_LIMITED'` sentinel iff the call was rejected with HTTP status 429 or
succeeded with candidate text trimming to exactly `RATE_LIMITED` (the sentinel
is in-band); every other rejection yields `null`, and a response with no usable
candidate text also yields `null` rather than raising. -/
theorem gemini_429_iff (userMessage apiKey lang : Str)
    (h : lang = "id".toList ∨ lang = "en".toList)
    (net : AxiosOutcome GeminiResponseData Unit) :
    (generateGeminiReply userMessage apiKey lang net = some "RATE_LIMITED".toList ↔
      ((∃ r, net = .err ⟨some r⟩ ∧ r.status = 429) ∨
       (∃ d, net = .ok d ∧ geminiExtractText d = some "RATE_LIMITED".toList))) ∧
    (∀ e : AxiosError Unit, (∀ r, e.response = some r → r.status ≠ 429) →
      generateGeminiReply userMessage apiKey lang (.err e) = none) ∧
    (∀ d, geminiExtractText d = none →
      generateGeminiReply userMessage apiKey lang (.ok d) = none) := by
  have hq : ∃ q, geminiBuildRequest userMessage apiKey lang = some q := by
    rcases h with h | h <;> subst h <;>
      simp [geminiBuildRequest, basePrompt]
  obtain ⟨q, hq⟩ := hq
  refine ⟨?_, ?_, ?_⟩
  · cases net with
    | ok d =>
      simp only [generateGeminiReply, hq]
      constructor
      · intro hd
        exact Or.inr ⟨d, rfl, hd⟩
      · rintro (⟨r, hr, -⟩ | ⟨d', hd', hx⟩)
        · exact absurd hr (by simp)
        · rw [(by injection hd' : d = d')]
          exact hx
    | err e =>
      obtain ⟨resp⟩ := e
      cases resp with
      | none =>
        simp only [generateGeminiReply, hq]
        constructor
        · intro hd
          exact absurd hd (by simp)
        · rintro (⟨r, hr, -⟩ | ⟨d', hd', -⟩)
          · have : (none : Option (AxiosErrorResponse Unit)) = some r := by
              injection hr with hr'
              injection hr'
            exact absurd this (by simp)
          · exact absurd hd' (by simp)
      | some r =>
        by_cases h429 : r.status = 429
        · simp only [generateGeminiReply, hq, h429]
          constructor
          · intro _
            exact Or.inl ⟨r, rfl, h429⟩
          · intro _
            simp
        · simp only [generateGeminiReply, hq]
          rw [if_neg h429]
          constructor
          · intro hd
            exact absurd hd (by simp)
          · rintro (⟨r', hr', h429'⟩ | ⟨d', hd', -⟩)
            · have : r = r' := by
                injection hr' with h1
                injection h1 with h2
                injection h2
              exact absurd (this ▸ h429') h429
            · exact absurd hd' (by simp)
  · intro e he
    obtain ⟨resp⟩ := e
    cases resp with
    | none => simp [generateGeminiReply, hq]
    | some r =>
      simp only [generateGeminiReply, hq]
      rw [if_neg (he r rfl)]
  · intro d hd
    simp [generateGeminiReply, hq, hd]

/-- Witness for the amended C4 at a concrete 429 rejection. -/
theorem gemini_429_iff_witness :
    generateGeminiReply "hi".toList "key12".toList "en".toList (.err ⟨some ⟨429, ()⟩⟩) =
      some "RATE_LIMITED".toList := by
  have h := gemini_429_iff "hi".toList "key12".toList "en".toList (Or.inr rfl)
    (.err ⟨some ⟨429, ()⟩⟩)
  exact h.1.mpr (Or.inl ⟨⟨429, ()⟩, rfl, rfl⟩)

/-- C7 counterexample: the empty string is a non-null replyToMessageId, yet the
posted payload carries no message_reference, because the source guards the field
with JS truthiness (`if (replyToMessageId)`), which an empty string fails. -/
theorem sendMessagePayload_empty_reply_id :
    (sendMessagePayload "hello".toList (some ([] : Str))).message_reference = none ∧
    some ([] : Str) ≠ none := ⟨rfl, by decide⟩

/-- C7 amended: the payload always carries exactly the given content; it has a
message_reference whose message_id equals replyToMessageId when a non-null,
non-empty replyToMessageId is supplied, and no message_reference when
replyToMessageId is omitted, null, or the (falsy) empty string. -/
theorem sendMessagePayload_spec (content rid : Str) (hrid : rid ≠ []) :
    (sendMessagePayload content (some rid)).content = content ∧
    (sendMessagePayload content (some rid)).message_reference = some ⟨rid⟩ ∧
    (∀ c : Str, (sendMessagePayload c none).content = c ∧
      (sendMessagePayload c none).message_reference = none ∧
      (sendMessagePayload c (some [])).message_reference = none) := by
  refine ⟨rfl, ?_, fun c => ⟨rfl, rfl, rfl⟩⟩
  have hne : rid.isEmpty = false := by
    cases rid with
    | nil => exact absurd rfl hrid
    | cons a t => rfl
  simp [sendMessagePayload, hne]

/-- Witness for the amended C7 at a concrete reply id. -/
theorem sendMessagePayload_spec_witness :
    (sendMessagePayload "hello".toList (some "12345".toList)).message_reference =
      some ⟨"12345".toList⟩ :=
  (sendMessagePayload_spec "hello".toList "12345".toList (by decide)).2.1

/-- C5: per the status rendering, a generation key is limited (rendered Limited
rather than Active) iff its stored cooldown expiry is present and later than
now — equivalently it is available iff the expiry is absent or not later than
now; marking a key rate-limited at `now` with a positive retry `r` makes it
limited immediately and no longer limited at every time at or after `now + r`;
and a non-limited key renders as the green Active line. -/
theorem key_availability (m : List (Str × Nat)) (key : Str) (now r t : Nat)
    (hr : 0 < r) (ht : now + r ≤ t) :
    (keyLimited m key now = false ↔ ∀ e, mapGet m key = some e → e ≤ now) ∧
    keyLimited (markRateLimited m key now (some r)) key now = true ∧
    keyLimited (markRateLimited m key now (some r)) key t = false ∧
    (keyLimited m key now = false → ∀ idx,
      keyLine idx key m now =
        " K".toList ++ natStr (idx + 1) ++ ": ".toList ++ mask key ++ " ".toList ++
        "{green-fg}Active{/green-fg}".toList ++ "\n".toList) := by
  have hget : mapGet (markRateLimited m key now (some r)) key = some (now + r) :=
    mapGet_mapSet_self m key (now + r)
  refine ⟨?_, ?_, ?_, ?_⟩
  · unfold keyLimited
    cases hm : mapGet m key with
    | none => simp
    | some e =>
      simp only [Bool.and_eq_false_iff, bne_eq_false_iff_eq, Option.some.injEq]
      constructor
      · rintro (h0 | hlt) e' he'
        · omega
        · have : ¬ now < e := by simpa using hlt
          omega
      · intro h
        have := h e rfl
        right
        simpa using (by omega : ¬ now < e)
  · unfold keyLimited
    rw [hget]
    have h1 : (now + r != 0) = true := by simp; omega
    have h2 : (now < now + r) = True := by simp; omega
    simp [h1, h2]
  · unfold keyLimited
    rw [hget]
    have h2 : ¬ now + r > t := by omega
    simp
    omega
  · intro hfalse idx
    unfold keyLine
    unfold keyLimited at hfalse
    cases hm : mapGet m key with
    | none => rfl
    | some e =>
      rw [hm] at hfalse
      have hc : (e != 0 && decide (now < e)) = false := hfalse
      simp [hc]

/-- Witness for C5: a key marked limited at 100 with retry 30 is limited at 100
and active again at 130. -/
theorem key_availability_witness :
    keyLimited (markRateLimited [] "gkey1".toList 100 (some 30)) "gkey1".toList 100 = true ∧
    keyLimited (markRateLimited [] "gkey1".toList 100 (some 30)) "gkey1".toList 130 = false := by
  have h := key_availability [] "gkey1".toList 100 30 130 (by decide) (by decide)
  exact ⟨h.2.1, h.2.2.1⟩

/-- C8: in the formatted status, a configured token is rendered with its resolved
username iff some bot-info record references it, and with the distinct red `X`
marker otherwise; under the snapshot well-formedness the bot logic guarantees
(distinct configured tokens, bot-info records referencing distinct configured
tokens), the loaded count shown — the number of bot-info records — equals the
number of tokens with a resolved identity; and each token's line is computed
from that token alone, leaving the other entries unaffected. -/
theorem token_display (sd : StatusData)
    (hnd : sd.discordTokens.Nodup)
    (hrefs : (sd.botInfos.map (fun b => b.tokenRef)).Nodup)
    (hsub : ∀ b ∈ sd.botInfos, b.tokenRef ∈ sd.discordTokens) :
    sd.botInfos.length =
      (sd.discordTokens.filter
        (fun t => (sd.botInfos.find? (fun b => b.tokenRef == t)).isSome)).length ∧
    (∀ t : Str,
      ((∃ b ∈ sd.botInfos, b.tokenRef = t) →
        ∃ b, sd.botInfos.find? (fun x => x.tokenRef == t) = some b ∧ b.tokenRef = t ∧
          tokenStatusPart t sd.botInfos =
            "({green-fg}".toList ++ b.fullUsername ++ "{/green-fg})".toList) ∧
      ((¬ ∃ b ∈ sd.botInfos, b.tokenRef = t) →
        tokenStatusPart t sd.botInfos = "({red-fg}X{/red-fg})".toList)) ∧
    (∀ u : Str, "({green-fg}".toList ++ u ++ "{/green-fg})".toList ≠
      "({red-fg}X{/red-fg})".toList) ∧
    (∀ idx t rest, tokenLinesAux idx (t :: rest) sd.botInfos =
      tokenLine idx t sd.botInfos ++ tokenLinesAux (idx + 1) rest sd.botInfos) := by
  refine ⟨?_, ?_, ?_, fun idx t rest => rfl⟩
  · have hpred : ∀ t ∈ sd.discordTokens,
        ((sd.botInfos.find? (fun b => b.tokenRef == t)).isSome) =
          decide (t ∈ sd.botInfos.map (fun b => b.tokenRef)) := by
      intro t _
      rcases hfind : sd.botInfos.find? (fun b => b.tokenRef == t) with _ | b
      · have hnotin : t ∉ sd.botInfos.map (fun b => b.tokenRef) := by
          rw [List.mem_map]
          rintro ⟨b, hb, he⟩
          have := List.find?_eq_none.mp hfind b hb
          simp [he] at this
        rw [List.mem_map] at hnotin
        simp only [hfind, Option.isSome_none, List.mem_map]
        exact (decide_eq_false hnotin).symm
      · have hp := List.find?_some hfind
        have hmem := List.mem_of_find?_eq_some hfind
        have hin : t ∈ sd.botInfos.map (fun b => b.tokenRef) :=
          List.mem_map.mpr ⟨b, hmem, by simpa using hp⟩
        simp only [hfind, Option.isSome_some]
        exact (decide_eq_true hin).symm
    rw [List.filter_congr hpred]
    have hnodupF :
        (sd.discordTokens.filter
          (fun t => decide (t ∈ sd.botInfos.map (fun b => b.tokenRef)))).Nodup :=
      hnd.filter _
    have hfin :
        (sd.discordTokens.filter
          (fun t => decide (t ∈ sd.botInfos.map (fun b => b.tokenRef)))).toFinset =
        (sd.botInfos.map (fun b => b.tokenRef)).toFinset := by
      ext x
      simp only [List.mem_toFinset, List.mem_filter, decide_eq_true_eq]
      constructor
      · exact fun h => h.2
      · intro hx
        refine ⟨?_, hx⟩
        obtain ⟨b, hb, he⟩ := List.mem_map.mp hx
        exact he ▸ hsub b hb
    have hcard := congrArg Finset.card hfin
    rw [List.toFinset_card_of_nodup hnodupF, List.toFinset_card_of_nodup hrefs] at hcard
    calc sd.botInfos.length
        = (sd.botInfos.map (fun b => b.tokenRef)).length := (List.length_map _ _).symm
      _ = _ := hcard.symm
  · intro t
    constructor
    · rintro ⟨b, hb, hbt⟩
      have hsome : (sd.botInfos.find? (fun x => x.tokenRef == t)).isSome :=
        List.find?_isSome.mpr ⟨b, hb, by simp [hbt]⟩
      rcases hfind : sd.botInfos.find? (fun x => x.tokenRef == t) with _ | b'
      · rw [hfind] at hsome
        exact absurd hsome (by simp)
      · refine ⟨b', hfind, ?_, ?_⟩
        · simpa using List.find?_some hfind
        · unfold tokenStatusPart
          rw [hfind]
    · intro hne
      have hnone : sd.botInfos.find? (fun x => x.tokenRef == t) = none := by
        rw [List.find?_eq_none]
        intro b hb
        simp only [beq_iff_eq]
        exact fun he => hne ⟨b, hb, he⟩
      unfold tokenStatusPart
      rw [hnone]
  · intro u h
    have hl1 : 2 < ("({green-fg}".toList ++ u).length := by
      simp only [List.length_append]
      have : ("({green-fg}".toList).length = 11 := by decide
      omega
    have e1 : ("({green-fg}".toList ++ u ++ "{/green-fg})".toList)[2]? = some 'g' := by
      rw [List.getElem?_append_left hl1,
        List.getElem?_append_left (by decide : (2 : Nat) < "({green-fg}".toList.length)]
      decide
    have h2 := congrArg (fun l : Str => l[2]?) h
    simp only at h2
    rw [e1] at h2
    exact absurd h2 (by decide)

/-- Witness for C8: two configured tokens, one resolved identity. -/
theorem token_display_witness :
    sdW.botInfos.length =
      (sdW.discordTokens.filter
        (fun t => (sdW.botInfos.find? (fun b => b.tokenRef == t)).isSome)).length ∧
    tokenStatusPart "tokenBBBB2".toList sdW.botInfos = "({red-fg}X{/red-fg})".toList := by
  have h := token_display sdW (by decide) (by decide) (by decide)
  exact ⟨h.1, (h.2.1 "tokenBBBB2".toList).2 (by decide)⟩

theorem find?_rename_botInfos (infos : List BotInfo) (ρ : Str → Str) (t : Str)
    (h : ∀ b ∈ infos, (ρ b.tokenRef == ρ t) = (b.tokenRef == t)) :
    (infos.map (fun b => { b with tokenRef := ρ b.tokenRef })).find?
        (fun b => b.tokenRef == ρ t) =
      (infos.find? (fun b => b.tokenRef == t)).map
        (fun b => { b with tokenRef := ρ b.tokenRef }) := by
  induction infos with
  | nil => rfl
  | cons b rest ih =>
    simp only [List.map_cons, List.find?_cons]
    rw [show (ρ b.tokenRef == ρ t) = (b.tokenRef == t) from h b (List.mem_cons_self b rest)]
    cases hbt : (b.tokenRef == t) with
    | true => rfl
    | false => exact ih (fun x hx => h x (List.mem_cons_of_mem b hx))

theorem tokenStatusPart_rename (t : Str) (infos : List BotInfo) (ρ : Str → Str)
    (h : ∀ b ∈ infos, (ρ b.tokenRef == ρ t) = (b.tokenRef == t)) :
    tokenStatusPart (ρ t) (infos.map (fun b => { b with tokenRef := ρ b.tokenRef })) =
      tokenStatusPart t infos := by
  unfold tokenStatusPart
  rw [find?_rename_botInfos infos ρ t h]
  cases infos.find? (fun b => b.tokenRef == t) with
  | none => rfl
  | some b => rfl

theorem tokenLinesAux_rename (tokens : List Str) (infos : List BotInfo) (ρ : Str → Str)
    (hm : ∀ t ∈ tokens, mask (ρ t) = mask t)
    (hp : ∀ t ∈ tokens, ∀ b ∈ infos, (ρ b.tokenRef == ρ t) = (b.tokenRef == t)) :
    ∀ idx, tokenLinesAux idx (tokens.map ρ)
        (infos.map (fun b => { b with tokenRef := ρ b.tokenRef })) =
      tokenLinesAux idx tokens infos := by
  induction tokens with
  | nil => intro idx; rfl
  | cons t rest ih =>
    intro idx
    simp only [List.map_cons, tokenLinesAux]
    rw [ih (fun x hx => hm x (List.mem_cons_of_mem t hx))
          (fun x hx => hp x (List.mem_cons_of_mem t hx))]
    unfold tokenLine
    rw [hm t (List.mem_cons_self t rest),
        tokenStatusPart_rename t infos ρ (hp t (List.mem_cons_self t rest))]

theorem keyLine_rename (idx : Nat) (k : Str) (rl : List (Str × Nat)) (now : Nat)
    (ρ : Str → Str) (hm : mask (ρ k) = mask k)
    (hg : mapGet (rl.map (fun p => (ρ p.1, p.2))) (ρ k) = mapGet rl k) :
    keyLine idx (ρ k) (rl.map (fun p => (ρ p.1, p.2))) now = keyLine idx k rl now := by
  unfold keyLine
  rw [hm, hg]

theorem keyLinesAux_rename (keys : List Str) (rl : List (Str × Nat)) (now : Nat)
    (ρ : Str → Str) (hm : ∀ k ∈ keys, mask (ρ k) = mask k)
    (hinj : ∀ k ∈ keys, ∀ p ∈ rl, ρ p.1 = ρ k → p.1 = k) :
    ∀ idx, keyLinesAux idx (keys.map ρ) (rl.map (fun p => (ρ p.1, p.2))) now =
      keyLinesAux idx keys rl now := by
  induction keys with
  | nil => intro idx; rfl
  | cons k rest ih =>
    intro idx
    simp only [List.map_cons, keyLinesAux]
    rw [keyLine_rename idx k rl now ρ (hm k (List.mem_cons_self k rest))
          (mapGet_map_rename rl k ρ (hinj k (List.mem_cons_self k rest))),
        ih (fun x hx => hm x (List.mem_cons_of_mem k hx))
          (fun x hx => hinj x (List.mem_cons_of_mem k hx))]

/-- C1 counterexample: the statusData payload handed to `ui.updateStatus` carries
the configured Discord credential verbatim in its discordTokens field — the raw
value, which differs from its masked form, crosses the boundary into the TUI
unredacted. -/
theorem statusPayload_contains_raw_secret :
    "SECRETDISCORDTOKEN9".toList ∈ (buildStatusPayload leakState).discordTokens ∧
    "SECRETDISCORDTOKEN9".toList ≠ mask "SECRETDISCORDTOKEN9".toList := by
  constructor
  · decide
  · decide

/-- C1 amended: masking is enforced inside the TUI's own formatting step, not
before the payload crosses the boundary — the rendered status text depends on
the secret values only through their masked forms and their equality pattern:
any renaming of the secrets that preserves masks and is injective on the
snapshot's secrets leaves the rendered content unchanged, so only masked
information about any credential or key is observable in the rendered status. -/
theorem formatStatusContent_noninterference (sd : StatusData) (now : Nat) (ρ : Str → Str)
    (hmask : ∀ s ∈ secretsOf sd, mask (ρ s) = mask s)
    (hinj : ∀ a ∈ secretsOf sd, ∀ b ∈ secretsOf sd, ρ a = ρ b → a = b) :
    formatStatusContent (renameSecrets ρ sd) now = formatStatusContent sd now := by
  have htok : ∀ t ∈ sd.discordTokens, t ∈ secretsOf sd := by
    intro t ht
    simp only [secretsOf, List.mem_append]
    tauto
  have hkey : ∀ k ∈ sd.googleApiKeys, k ∈ secretsOf sd := by
    intro k hk
    simp only [secretsOf, List.mem_append]
    tauto
  have href : ∀ b ∈ sd.botInfos, b.tokenRef ∈ secretsOf sd := by
    intro b hb
    have : b.tokenRef ∈ sd.botInfos.map (fun b => b.tokenRef) :=
      List.mem_map.mpr ⟨b, hb, rfl⟩
    simp only [secretsOf, List.mem_append]
    tauto
  have hrl : ∀ p ∈ sd.rateLimitedKeys, p.1 ∈ secretsOf sd := by
    intro p hp
    have : p.1 ∈ sd.rateLimitedKeys.map (fun p => p.1) :=
      List.mem_map.mpr ⟨p, hp, rfl⟩
    simp only [secretsOf, List.mem_append]
    tauto
  have hbt : ∀ t ∈ sd.discordTokens, ∀ b ∈ sd.botInfos,
      (ρ b.tokenRef == ρ t) = (b.tokenRef == t) := by
    intro t ht b hb
    by_cases he : b.tokenRef = t
    · rw [he]
      simp
    · have hne : ρ b.tokenRef ≠ ρ t := fun hc => he (hinj _ (href b hb) _ (htok t ht) hc)
      simp [he, hne]
  have hkinj : ∀ k ∈ sd.googleApiKeys, ∀ p ∈ sd.rateLimitedKeys, ρ p.1 = ρ k → p.1 = k := by
    intro k hk p hp hc
    exact hinj _ (hrl p hp) _ (hkey k hk) hc
  have h2 : tokensSection (renameSecrets ρ sd).discordTokens (renameSecrets ρ sd).botInfos =
      tokensSection sd.discordTokens sd.botInfos := by
    show tokensSection (sd.discordTokens.map ρ)
        (sd.botInfos.map (fun b => { b with tokenRef := ρ b.tokenRef })) =
      tokensSection sd.discordTokens sd.botInfos
    unfold tokensSection
    simp only [List.length_map]
    rw [tokenLinesAux_rename sd.discordTokens sd.botInfos ρ
          (fun t ht => hmask t (htok t ht)) hbt 0]
  have h3 : keysSection (renameSecrets ρ sd).googleApiKeys
      (renameSecrets ρ sd).rateLimitedKeys now =
      keysSection sd.googleApiKeys sd.rateLimitedKeys now := by
    show keysSection (sd.googleApiKeys.map ρ)
        (sd.rateLimitedKeys.map (fun p => (ρ p.1, p.2))) now =
      keysSection sd.googleApiKeys sd.rateLimitedKeys now
    unfold keysSection
    simp only [List.length_map]
    rw [keyLinesAux_rename sd.googleApiKeys sd.rateLimitedKeys now ρ
          (fun k hk => hmask k (hkey k hk)) hkinj 0]
  unfold formatStatusContent
  rw [show (renameSecrets ρ sd).isRunning = sd.isRunning from rfl,
      show (renameSecrets ρ sd).channelIds = sd.channelIds from rfl,
      show (renameSecrets ρ sd).channelDetails = sd.channelDetails from rfl,
      h2, h3]

/-- Witness for the amended C1: rewriting the middles of the secrets of `sdN`
while preserving their masks leaves the rendered status content unchanged. -/
theorem formatStatusContent_noninterference_witness :
    formatStatusContent (renameSecrets renameW sdN) 60 = formatStatusContent sdN 60 :=
  formatStatusContent_noninterference sdN 60 renameW (by decide) (by decide)
